import Mathlib

/-!
Shallow embedding of `src/escpos.py` (yniverz/python-escpos): a resilient
POS-printer driver (`POSPrinter`, the spec's ConnectionManager) and a deferred
command buffer with chart/table renderers (`POSPrinterGraphics`, the spec's
CommandQueue / ChartRenderer / TableRenderer).

Modelling conventions:
* Device calls are recorded as events (`DevEv`); stateful methods are functions
  `PState → List DevEv × PState` describing their success path (the device
  cooperates).  The retry wrapper `do_safe` is modelled separately (`doSafe`)
  over an explicit list of attempt outcomes.
* Python `bytes` become `List Nat` (byte values).
* Python numbers in the chart renderer become `ℚ` (true division) and `ℤ`
  (after `int(...)` truncation); operations that raise in Python
  (`ZeroDivisionError`) return `Except String _`.
-/

namespace Escpos

/-- Primitive device-level events observable at the printer-device boundary. -/
inductive DevEv where
  | usbCreate                      -- `USBConnection.create(...)`
  | initDev                        -- `self.printer.init()`
  | write (bs : List Nat)          -- `self.printer.device.write(bytes)`
  | cutDev (feed : Nat)            -- `self.printer.cut(feed=...)`
  | textDev (s : String)           -- `self.printer.text(text)`
  | lfDev (n : Nat)                -- `self.printer.lf(lines)`
  | justifyLeftDev                 -- `self.printer.justify_left()`
  | justifyCenterDev               -- `self.printer.justify_center()`
  | justifyRightDev                -- `self.printer.justify_right()`
  | setTextSizeDev (w h : Nat)     -- `self.printer.set_text_size(w, h)`
  deriving Repr, DecidableEq

/-- Bytes written by `POSPrinter._set_upside_down` (line 82):
`self.printer.device.write(b'\x1B' + b'{1' if upside_down else b'{2')`.
Python parses `a + b if c else d` as `(a + b) if c else d`, so the
`False` branch writes only `b'{2'` (no `ESC` byte). -/
def upsideDownBytes (upside_down : Bool) : List Nat :=
  if upside_down then [0x1B, 0x7B, 0x31] else [0x7B, 0x32]

/-- Bytes written by `POSPrinter._set_smooth` (line 90):
`self.printer.device.write(b'\x1D' + b'b' + b'\x01' if smooth else b'\x02')`.
Again by Python precedence the `False` branch writes only `b'\x02'`. -/
def smoothBytes (smooth : Bool) : List Nat :=
  if smooth then [0x1D, 0x62, 0x01] else [0x02]

/-- The mutable state of `POSPrinter` that the claims depend on.  The device
handle (`usb_dev`, `printer`) is abstracted into the event trace. -/
structure PState where
  printer_width : Nat := 48
  line_char : String := "#"
  last_upside_down : Bool := false
  deriving Repr, DecidableEq

/-- `POSPrinter._set_upside_down` (lines 80-83): write the raw orientation
bytes, then persist the new value into `last_upside_down`. -/
def setUpsideDownRaw (upside_down : Bool) (st : PState) : List DevEv × PState :=
  ([DevEv.write (upsideDownBytes upside_down)],
   { st with last_upside_down := upside_down })

/-- `POSPrinter.set_upside_down` (lines 77-78): `do_safe(self._set_upside_down,
upside_down)` — on the success path this is one invocation of the raw method. -/
def set_upside_down (upside_down : Bool) (st : PState) : List DevEv × PState :=
  setUpsideDownRaw upside_down st

/-- `POSPrinter._set_smooth` (lines 88-90): write the raw quality bytes.
No printer state is touched. -/
def setSmoothRaw (smooth : Bool) (st : PState) : List DevEv × PState :=
  ([DevEv.write (smoothBytes smooth)], st)

/-- `POSPrinter.set_smooth` (lines 85-86), success path of the wrapper. -/
def set_smooth (smooth : Bool) (st : PState) : List DevEv × PState :=
  setSmoothRaw smooth st

/-- `POSPrinter.connect` (lines 19-28), success path: create the USB session,
(re)initialize the printer object, call `printer.init()`, and — only when
`last_upside_down` is truthy — re-apply the persisted orientation via
`do_safe(self.set_upside_down, self.last_upside_down)`. -/
def connect (st : PState) : List DevEv × PState :=
  let setup := [DevEv.usbCreate, DevEv.initDev]
  if st.last_upside_down then
    let (t, st₂) := set_upside_down st.last_upside_down st
    (setup ++ t, st₂)
  else
    (setup, st)

end Escpos

namespace Escpos

/-- C6: the raw control sequences actually written by the code.
`set_upside_down(True)` writes `1B 7B 31` and `set_smooth(True)` writes
`1D 62 01` as the claim says, but by Python operator precedence the `False`
branches write only `7B 32` resp. `02` — not the claimed `1B 7B 32` /
`1D 62 02`. -/
theorem c6_raw_sequences :
    upsideDownBytes true = [0x1B, 0x7B, 0x31] ∧
    upsideDownBytes false = [0x7B, 0x32] ∧
    smoothBytes true = [0x1D, 0x62, 0x01] ∧
    smoothBytes false = [0x02] := by
  refine ⟨rfl, rfl, rfl, rfl⟩

/-- C5: `set_upside_down` persists its argument into printer state; after a
reconnect, if `upsideDown` was previously set, `connect` re-applies it (the
orientation write is the last device event of the reconnect, hence precedes
any subsequent command); `set_smooth` leaves printer state unchanged, and a
reconnect never re-writes a smoothing sequence. -/
theorem c5_orientation_persisted_smooth_not :
    ∀ (u s : Bool) (st : PState),
      ((set_upside_down u st).2.last_upside_down = u) ∧
      ((set_smooth s st).2 = st) ∧
      (connect st =
        (if st.last_upside_down then
          ([DevEv.usbCreate, DevEv.initDev, DevEv.write (upsideDownBytes true)],
           st)
         else ([DevEv.usbCreate, DevEv.initDev], st))) ∧
      (∀ b : Bool, DevEv.write (smoothBytes b) ∉ (connect st).1) := by
  intro u s st
  refine ⟨rfl, rfl, ?_, ?_⟩
  · cases h : st.last_upside_down <;>
      simp [connect, set_upside_down, setUpsideDownRaw, h]
    cases st
    simp_all
  · intro b
    cases h : st.last_upside_down <;>
      simp [connect, set_upside_down, setUpsideDownRaw, h,
        upsideDownBytes, smoothBytes] <;>
      cases b <;> simp [smoothBytes, upsideDownBytes]

end Escpos

namespace Escpos

/-- Events of the retry wrapper `do_safe` (lines 30-41). -/
inductive REv where
  | attempt (d : DevEv)   -- one invocation of the wrapped operation
  | logTrace              -- `print(traceback.format_exc())`
  | sleep (secs : Nat)    -- `time.sleep(20)`
  | reconnect             -- `self.do_safe(self.connect)` in the handler
  deriving Repr, DecidableEq

/-- `POSPrinter.do_safe(func, *args)` (lines 30-41), the spec's `runResilient`,
modelled over an explicit list of attempt outcomes (`true`: the wrapped device
call returns; `false`: it raises).  `isConnect` embeds the guard
`if func != self.connect` of line 40.  Each failed attempt logs, sleeps 20
seconds, reconnects unless the wrapped operation is `connect` itself, and
loops back to retry the same operation.  An empty outcome list stands for a
loop still running: no further events, not yet succeeded (second component
`false`). -/
def doSafe (isConnect : Bool) (d : DevEv) : List Bool → List REv × Bool
  | [] => ([], false)
  | ok :: rest =>
    if ok then ([REv.attempt d], true)
    else
      let (t, r) := doSafe isConnect d rest
      ([REv.attempt d, REv.logTrace, REv.sleep 20] ++
        (if isConnect then [] else [REv.reconnect]) ++ t, r)

/-- `POSPrinter.justify` (lines 64-72): dispatch the matching device operation
through `do_safe`, or raise `ValueError("Invalid side")` for any other side.
The raise happens before and outside any `do_safe` call, so it propagates to
the caller: modelled as `Except.error`.  `outcomes` drives the retry wrapper
of the dispatched operation. -/
def justify (side : String) (outcomes : List Bool) :
    Except String (List REv × Bool) :=
  if side = "left" then
    Except.ok (doSafe false DevEv.justifyLeftDev outcomes)
  else if side = "center" then
    Except.ok (doSafe false DevEv.justifyCenterDev outcomes)
  else if side = "right" then
    Except.ok (doSafe false DevEv.justifyRightDev outcomes)
  else
    Except.error "Invalid side"

/-- C2: the retry wrapper.  (1) On a failing attempt it logs, sleeps the fixed
20 seconds, reconnects (only when the wrapped operation is not `connect`
itself), and retries the same operation from the top.  (2) On a succeeding
attempt it returns after that single invocation.  (3) When the wrapped
operation is `connect`, no failure ever re-invokes `connect` from the retry
handler: the trace contains no `reconnect` event.  (4) The wrapper terminates
successfully exactly when some attempt succeeds — otherwise it is still
looping. -/
theorem c2_do_safe_retry :
    (∀ (ic : Bool) (d : DevEv) (rest : List Bool),
      doSafe ic d (false :: rest) =
        ([REv.attempt d, REv.logTrace, REv.sleep 20] ++
          (if ic then [] else [REv.reconnect]) ++ (doSafe ic d rest).1,
         (doSafe ic d rest).2)) ∧
    (∀ (ic : Bool) (d : DevEv) (rest : List Bool),
      doSafe ic d (true :: rest) = ([REv.attempt d], true)) ∧
    (∀ (d : DevEv) (outcomes : List Bool),
      REv.reconnect ∉ (doSafe true d outcomes).1) ∧
    (∀ (ic : Bool) (d : DevEv) (outcomes : List Bool),
      (doSafe ic d outcomes).2 = true ↔ true ∈ outcomes) := by
  refine ⟨fun ic d rest => by simp [doSafe], fun ic d rest => by simp [doSafe],
    ?_, ?_⟩
  · intro d outcomes
    induction outcomes with
    | nil => simp [doSafe]
    | cons ok rest ih =>
      cases ok <;> simp [doSafe, ih]
  · intro ic d outcomes
    induction outcomes with
    | nil => simp [doSafe]
    | cons ok rest ih =>
      cases ok <;> simp [doSafe, ih]

/-- C8: `justify` with side `left`, `center` or `right` dispatches the
corresponding device operation under the retry wrapper `do_safe`; any other
side raises `ValueError("Invalid side")` immediately — independently of the
attempt outcomes, so it is never retried — and produces no device call. -/
theorem c8_justify_dispatch (outcomes : List Bool) (side : String) :
    justify "left" outcomes =
      Except.ok (doSafe false DevEv.justifyLeftDev outcomes) ∧
    justify "center" outcomes =
      Except.ok (doSafe false DevEv.justifyCenterDev outcomes) ∧
    justify "right" outcomes =
      Except.ok (doSafe false DevEv.justifyRightDev outcomes) ∧
    (side ∉ ["left", "center", "right"] →
      justify side outcomes = Except.error "Invalid side") := by
  refine ⟨rfl, rfl, rfl, fun h => ?_⟩
  simp only [List.mem_cons, List.mem_singleton] at h
  push_neg at h
  simp [justify, h.1, h.2.1, h.2.2]

/-- C8 witness: the invalid side `"up"` fails immediately even though the
device would keep failing (outcomes all `false`). -/
theorem c8_justify_dispatch_witness :
    justify "up" [false, false] = Except.error "Invalid side" :=
  (c8_justify_dispatch [false, false] "up").2.2.2 (by decide)

end Escpos

namespace Escpos

/-- A deferred unit of work appended to `POSPrinterGraphics.command_buffer`:
the bound method together with its argument list, as a tagged variant.
`justify=None` of `POSPrinter.print` is `none`; the `size` parameter of
graphics `text` does not appear here because it is expanded into surrounding
`setTextSizeCmd` entries at append time. -/
inductive Command where
  | printCmd (text : String) (justify : Option String)  -- `self.printer.print`
  | feedCmd (lines : Nat)                               -- `self.printer.feed`
  | lineCmd                                             -- `self.printer.line`
  | justifyCmd (side : String)                          -- `self.printer.justify`
  | cutCmd                                              -- `self.printer.cut`
  | setTextSizeCmd (w h : Nat)                 -- `self.printer.set_text_size`
  deriving Repr, DecidableEq

/-- The state of `POSPrinterGraphics` (lines 93-100). -/
structure GState where
  printer : PState
  width : Nat
  upsideDown : Bool
  buffer : List Command
  deriving Repr, DecidableEq

/-- `POSPrinterGraphics.__init__` (lines 94-100): store the printer and width,
store the orientation, immediately call `printer.set_upside_down(upside_down)`
(device I/O, unconditionally — also when `upside_down` is `False`), then
create the empty command buffer. -/
def graphicsInit (pst : PState) (width : Nat) (upside_down : Bool) :
    List DevEv × GState :=
  let (t, pst₂) := set_upside_down upside_down pst
  (t, { printer := pst₂, width := width, upsideDown := upside_down,
        buffer := [] })

/-- `POSPrinterGraphics.set_text_size` (lines 128-129): append only. -/
def gSetTextSize (w h : Nat) (st : GState) : GState :=
  { st with buffer := st.buffer ++ [Command.setTextSizeCmd w h] }

/-- `POSPrinterGraphics.text` (lines 103-114).  Python's `if size:` is false
for `None` and `0`; `size` is modelled as a `Nat` with `0` for the absent
default.  With a non-zero size the buffered text command is bracketed by
`set_text_size` appends whose order flips when `upsideDown` is set. -/
def gText (text : String) (justify : Option String) (size : Nat)
    (st : GState) : GState :=
  let st₁ :=
    if size ≠ 0 then
      if st.upsideDown then gSetTextSize 0 0 st else gSetTextSize size size st
    else st
  let st₂ := { st₁ with buffer := st₁.buffer ++ [Command.printCmd text justify] }
  if size ≠ 0 then
    if st₂.upsideDown then gSetTextSize size size st₂ else gSetTextSize 0 0 st₂
  else st₂

/-- `POSPrinterGraphics.feed` (lines 116-117). -/
def gFeed (lines : Nat) (st : GState) : GState :=
  { st with buffer := st.buffer ++ [Command.feedCmd lines] }

/-- `POSPrinterGraphics.line` (lines 119-120). -/
def gLine (st : GState) : GState :=
  { st with buffer := st.buffer ++ [Command.lineCmd] }

/-- `POSPrinterGraphics.justify` (lines 122-123). -/
def gJustify (side : String) (st : GState) : GState :=
  { st with buffer := st.buffer ++ [Command.justifyCmd side] }

/-- `POSPrinterGraphics.cut` (lines 125-126). -/
def gCut (st : GState) : GState :=
  { st with buffer := st.buffer ++ [Command.cutCmd] }

/-- `POSPrinterGraphics.print` (lines 135-142), the spec's
`CommandQueue.flush`: reverse the buffer in place when `upsideDown`, execute
each buffered command in sequence (the executed commands, in order, are the
first component), then clear the buffer. -/
def gPrint (st : GState) : List Command × GState :=
  let buf := if st.upsideDown then st.buffer.reverse else st.buffer
  (buf, { st with buffer := [] })

/-- One buffered call of the append-only graphics API, for quantifying over
arbitrary sequences of appends. -/
inductive GOp where
  | textOp (text : String) (justify : Option String) (size : Nat)
  | feedOp (lines : Nat)
  | lineOp
  | justifyOp (side : String)
  | cutOp
  | setTextSizeOp (w h : Nat)
  deriving Repr, DecidableEq

/-- Dispatch one append-only call. -/
def applyGOp (op : GOp) (st : GState) : GState :=
  match op with
  | GOp.textOp t j s => gText t j s st
  | GOp.feedOp n => gFeed n st
  | GOp.lineOp => gLine st
  | GOp.justifyOp s => gJustify s st
  | GOp.cutOp => gCut st
  | GOp.setTextSizeOp w h => gSetTextSize w h st

/-- A sequence of append-only calls, first call first. -/
def applyGOps (ops : List GOp) (st : GState) : GState :=
  ops.foldl (fun st op => applyGOp op st) st

/-- The commands a single append-only call inserts, given the queue's
orientation (which no append-only call ever changes). -/
def gOpCommands (u : Bool) : GOp → List Command
  | GOp.textOp t j s =>
    if s ≠ 0 then
      if u then
        [Command.setTextSizeCmd 0 0, Command.printCmd t j,
         Command.setTextSizeCmd s s]
      else
        [Command.setTextSizeCmd s s, Command.printCmd t j,
         Command.setTextSizeCmd 0 0]
    else [Command.printCmd t j]
  | GOp.feedOp n => [Command.feedCmd n]
  | GOp.lineOp => [Command.lineCmd]
  | GOp.justifyOp s => [Command.justifyCmd s]
  | GOp.cutOp => [Command.cutCmd]
  | GOp.setTextSizeOp w h => [Command.setTextSizeCmd w h]

/-- Every append-only call only appends: it extends the buffer with its own
commands and leaves printer, width and orientation untouched. -/
theorem applyGOp_spec (op : GOp) (st : GState) :
    applyGOp op st =
      { st with buffer := st.buffer ++ gOpCommands st.upsideDown op } := by
  cases op with
  | textOp t j s =>
    by_cases hs : s = 0 <;> by_cases hu : st.upsideDown <;>
      simp [applyGOp, gText, gSetTextSize, gOpCommands, hs, hu]
  | feedOp n => simp [applyGOp, gFeed, gOpCommands]
  | lineOp => simp [applyGOp, gLine, gOpCommands]
  | justifyOp s => simp [applyGOp, gJustify, gOpCommands]
  | cutOp => simp [applyGOp, gCut, gOpCommands]
  | setTextSizeOp w h => simp [applyGOp, gSetTextSize, gOpCommands]

/-- A sequence of append-only calls records exactly its commands, in insertion
order, after the existing buffer. -/
theorem applyGOps_spec (ops : List GOp) (st : GState) :
    applyGOps ops st =
      { st with buffer := st.buffer ++ ops.flatMap (gOpCommands st.upsideDown) } := by
  induction ops generalizing st with
  | nil => simp [applyGOps]
  | cons op rest ih =>
    show applyGOps rest (applyGOp op st) = _
    rw [applyGOp_spec]
    rw [ih]
    simp [List.flatMap_cons]

end Escpos

namespace Escpos

/-- C1: for every sequence of appended commands, flushing (`gPrint`) executes
the buffered commands in exactly reverse insertion order when `upsideDown` is
true and in exact insertion order when it is false, and afterwards the buffer
is empty. -/
theorem c1_flush_order (ops : List GOp) (pst : PState) (w : Nat) (u : Bool) :
    (gPrint (applyGOps ops (GState.mk pst w u []))).1 =
      (if u then (ops.flatMap (gOpCommands u)).reverse
       else ops.flatMap (gOpCommands u)) ∧
    (gPrint (applyGOps ops (GState.mk pst w u []))).2.buffer = [] := by
  rw [applyGOps_spec]
  simp [gPrint]

/-- C7: `text` with a non-zero `size` brackets the buffered text command with
`setTextSize` appends — enlarge, text, restore-to-default when not upside
down; in the opposite order when upside down, so that reversing the appended
block at flush time restores the enlarge/text/restore order. -/
theorem c7_text_size_order (t : String) (j : Option String) (size : Nat)
    (st : GState) (h : size ≠ 0) :
    (gText t j size st).buffer =
      st.buffer ++
        (if st.upsideDown then
          [Command.setTextSizeCmd 0 0, Command.printCmd t j,
           Command.setTextSizeCmd size size]
         else
          [Command.setTextSizeCmd size size, Command.printCmd t j,
           Command.setTextSizeCmd 0 0]) ∧
    ([Command.setTextSizeCmd 0 0, Command.printCmd t j,
      Command.setTextSizeCmd size size].reverse =
       [Command.setTextSizeCmd size size, Command.printCmd t j,
        Command.setTextSizeCmd 0 0]) := by
  constructor
  · by_cases hu : st.upsideDown <;>
      simp [gText, gSetTextSize, h, hu]
  · simp

/-- C7 witness: a concrete size-2 text append on an upside-down queue. -/
theorem c7_text_size_order_witness :
    (gText "hi" none 2
        (GState.mk (PState.mk 48 "#" true) 48 true [])).buffer =
      [] ++
        [Command.setTextSizeCmd 0 0, Command.printCmd "hi" none,
         Command.setTextSizeCmd 2 2] ∧
    ([Command.setTextSizeCmd 0 0, Command.printCmd "hi" none,
      Command.setTextSizeCmd 2 2].reverse =
       [Command.setTextSizeCmd 2 2, Command.printCmd "hi" none,
        Command.setTextSizeCmd 0 0]) := by
  have h := c7_text_size_order "hi" none 2
    (GState.mk (PState.mk 48 "#" true) 48 true []) (by decide)
  simpa using h

/-- C10: constructing the graphics layer performs immediate device I/O before
anything is buffered — it calls `set_upside_down` unconditionally, writing the
orientation bytes also when `upside_down` is false — and it initializes the
command buffer to empty (persisting the orientation into printer state as a
side effect of the setter). -/
theorem c10_graphics_init_io (pst : PState) (w : Nat) (u : Bool) :
    (graphicsInit pst w u).1 = [DevEv.write (upsideDownBytes u)] ∧
    (graphicsInit pst w u).2.buffer = [] ∧
    (graphicsInit pst w u).2.printer.last_upside_down = u := by
  refine ⟨rfl, rfl, rfl⟩

end Escpos

namespace Escpos

/-- Python `int(x)` on a real: truncation toward zero. -/
def pyInt (q : ℚ) : ℤ := if 0 ≤ q then ⌊q⌋ else -⌊-q⌋

/-- Python `range(0, stop, step)` for `step ≥ 1`: the multiples of `step`
below `stop`, in increasing order.  (Python raises for `step = 0`; the code
reaches this only with `step = len(values) // width ≥ 1`.) -/
def pyRange0 (stop step : Nat) : List Nat :=
  (List.range stop).filter (fun i => i % step = 0)

/-- Decimation branch of `print_chart` (line 151):
`[values[i] for i in range(0, len(values), len(values) // width)]`. -/
def decimate (values : List ℚ) (width : Nat) : List ℚ :=
  (pyRange0 values.length (values.length / width)).map
    (fun i => values.getD i 0)

/-- Interpolation branch of `print_chart` (lines 154-163): for each output
index `i`, `index = i*(len-1)/(width-1)`, `a = floor(index)`,
`b = ceil(index)`, `weight = index - a`, output
`values[a]*(1-weight) + values[b]*weight`.  (`index` is nonnegative in every
reachable call, so the `toNat` coercions are faithful; `width = 1` would raise
`ZeroDivisionError` in Python and is outside the claims settled here.) -/
def interpolate (values : List ℚ) (width : Nat) : List ℚ :=
  (List.range width).map (fun i =>
    let index : ℚ := (i : ℚ) * ((values.length : ℚ) - 1) / ((width : ℚ) - 1)
    let weight : ℚ := index - (⌊index⌋ : ℚ)
    values.getD (⌊index⌋).toNat 0 * (1 - weight) +
      values.getD (⌈index⌉).toNat 0 * weight)

/-- Resampling step of `print_chart` (lines 148-163) on the canvas width
`width = self.width - 2`: decimate when `len(values) >= width`, else
interpolate. -/
def chartValues (values : List ℚ) (width : Nat) : List ℚ :=
  if width ≤ values.length then decimate values width else interpolate values width

/-- Python `max(list)` over a nonempty list (raises on `[]`, which no claim
reaches; `0` is a dummy for that case). -/
def listMax : List ℚ → ℚ
  | [] => 0
  | h :: t => t.foldl max h

/-- Python `min(list)` over a nonempty list. -/
def listMin : List ℚ → ℚ
  | [] => 0
  | h :: t => t.foldl min h

/-- Normalization step of `print_chart` (lines 166-174):
`bucket = int((value - min_value) / range_value * height)`.  When
`range_value = 0`, Python raises `ZeroDivisionError`, modelled as
`Except.error`. -/
def normalizeChart (vals : List ℚ) (height : Nat) : Except String (List ℤ) :=
  let mx := listMax vals
  let mn := listMin vals
  if mx - mn = 0 then Except.error "ZeroDivisionError"
  else Except.ok (vals.map (fun v => pyInt ((v - mn) / (mx - mn) * height)))

/-- `print_chart` (lines 147-174) up to and including normalization, starting
from the printer's configured column width `selfWidth` (the canvas is
`selfWidth - 2` wide).  The canvas/border rendering (lines 176-210) runs only
after this succeeds. -/
def printChartBuckets (selfWidth : Nat) (values : List ℚ) (height : Nat) :
    Except String (List ℤ) :=
  normalizeChart (chartValues values (selfWidth - 2)) height

/-- Python `"{:>n}".format(s)` for `n ≥ 0`: right-justify by padding with
spaces when the string is shorter than `n`, otherwise leave it unchanged. -/
def pyRJust (s : String) (n : Int) : String :=
  if (s.length : Int) < n then
    String.mk (List.replicate (n - s.length).toNat ' ') ++ s
  else s

/-- One row of `POSPrinterGraphics.print_table` (lines 218-220):
`" " * padding + f"{key}: {value:>{self.width - len(str(key)) - 2 - 2*padding}}"`
with `key`/`value` already passed through Python `str()`. -/
def tableLine (selfWidth padding : Nat) (key value : String) : String :=
  String.mk (List.replicate padding ' ') ++ key ++ ": " ++
    pyRJust value ((selfWidth : Int) - key.length - 2 - 2 * padding)

/-- `POSPrinterGraphics.print_table` (lines 212-220): for each pair, buffer
one text line via `self.text` (justify and size defaults). -/
def print_table (data : List (String × String)) (padding : Nat)
    (st : GState) : GState :=
  data.foldl (fun st kv => gText (tableLine st.width padding kv.1 kv.2) none 0 st) st

end Escpos

namespace Escpos

/-- `range(0, n, s)` for `s ≥ 1` enumerates `i * s` for
`i < ⌈n / s⌉ = (n + s - 1) / s`. -/
theorem pyRange0_eq_map (s : Nat) (hs : 1 ≤ s) :
    ∀ n : Nat, pyRange0 n s = (List.range ((n + s - 1) / s)).map (fun i => i * s) := by
  intro n
  induction n with
  | zero =>
    have h0 : (s - 1) / s = 0 := Nat.div_eq_of_lt (by omega)
    simp [pyRange0, h0]
  | succ n ih =>
    simp only [pyRange0] at ih ⊢
    rw [List.range_succ, List.filter_append]
    by_cases hd : n % s = 0
    · obtain ⟨q, rfl⟩ := Nat.dvd_of_mod_eq_zero hd
      have hc1 : (s * q + 1 + s - 1) / s = q + 1 := by
        have h1 : s * q + 1 + s - 1 = s * (q + 1) := by rw [Nat.mul_succ]; omega
        rw [h1, Nat.mul_div_cancel_left _ (by omega : 0 < s)]
      have hc0 : (s * q + s - 1) / s = q := by
        have h1 : s * q + s - 1 = (s - 1) + s * q := by omega
        rw [h1, Nat.add_mul_div_left _ _ (by omega : 0 < s),
          Nat.div_eq_of_lt (by omega)]
        omega
      rw [hc1, ih, hc0, List.range_succ, List.map_append]
      simp [hd, Nat.mul_comm]
    · have hn : 1 ≤ n := by
        rcases Nat.eq_zero_or_pos n with h | h
        · subst h; simp at hd
        · exact h
      have hnd : ¬ s ∣ n := by
        intro h
        rcases h with ⟨c, rfl⟩
        exact hd (Nat.mul_mod_right s c)
      have hc1 : (n + 1 + s - 1) / s = n / s + 1 := by
        have h1 : n + 1 + s - 1 = n + s := by omega
        rw [h1, Nat.add_div_right _ (by omega)]
      have h2 : n / s = (n - 1) / s := by
        conv_lhs => rw [show n = (n - 1) + 1 by omega]
        rw [Nat.succ_div]
        have hnd2 : ¬ s ∣ n - 1 + 1 := by
          have he : n - 1 + 1 = n := by omega
          rw [he]; exact hnd
        simp [hnd2]
      have hc0 : (n + s - 1) / s = n / s + 1 := by
        have h1 : n + s - 1 = (n - 1) + s := by omega
        rw [h1, Nat.add_div_right _ (by omega), h2]
      rw [hc1, ih, hc0]
      simp [hd]

end Escpos

namespace Escpos

/-- C3 counterexample: a series of length 3 on a canvas width of 2 (e.g. a
printer constructed with `width = 4`) satisfies `len(series) ≥ width`, yet the
decimated output has length 3, not `width = 2`: the stride is
`3 // 2 = 1`, so `range(0, 3, 1)` keeps every sample. -/
theorem c3_decimation_length_counterexample :
    2 ≤ ([0, 1, 2] : List ℚ).length ∧ (decimate [0, 1, 2] 2).length ≠ 2 := by
  decide

/-- C3 (amended): with `1 ≤ width ≤ len(series)` and stride
`s = len(series) / width`, the decimated output has length
`⌈len(series) / s⌉ = (len + s - 1) / s` — which equals `width` exactly when
`width` divides `len(series)`, but exceeds it otherwise — and output index `i`
selects `series[i * s]`, as the claim states. -/
theorem c3_decimation_amended (values : List ℚ) (width : Nat)
    (h1 : 1 ≤ width) (h2 : width ≤ values.length) :
    (decimate values width).length =
      (values.length + values.length / width - 1) / (values.length / width) ∧
    (∀ i : Nat, i < (decimate values width).length →
      (decimate values width).getD i 0 =
        values.getD (i * (values.length / width)) 0) ∧
    (width ∣ values.length → (decimate values width).length = width) := by
  have hs : 1 ≤ values.length / width :=
    (Nat.one_le_div_iff (by omega)).mpr h2
  have hlen : (decimate values width).length =
      (values.length + values.length / width - 1) / (values.length / width) := by
    rw [decimate, pyRange0_eq_map _ hs, List.length_map, List.length_map,
      List.length_range]
  refine ⟨hlen, ?_, ?_⟩
  · intro i hi
    rw [decimate, pyRange0_eq_map _ hs, List.map_map]
    rw [hlen] at hi
    rw [List.getD_eq_getElem _ _ (by simpa using hi)]
    simp
  · rintro ⟨k, hk⟩
    have hk1 : 1 ≤ k := by
      rcases Nat.eq_zero_or_pos k with h | h
      · subst h; omega
      · exact h
    have hdiv : values.length / width = k := by
      rw [hk, Nat.mul_div_cancel_left _ (by omega : 0 < width)]
    rw [hlen, hdiv, hk]
    have h1' : width * k + k - 1 = (k - 1) + k * width := by
      rw [Nat.mul_comm width k]; omega
    rw [h1', Nat.add_mul_div_left _ _ (by omega : 0 < k),
      Nat.div_eq_of_lt (by omega)]
    omega

/-- C3 witness: `series = [0,1,2,3]`, `width = 2` (stride 2, exact division):
the amended theorem applies and the output length is exactly 2. -/
theorem c3_decimation_amended_witness :
    1 ≤ 2 ∧ 2 ≤ ([0, 1, 2, 3] : List ℚ).length ∧
    (decimate [0, 1, 2, 3] 2).length = 2 :=
  ⟨by decide, by decide,
    (c3_decimation_amended [0, 1, 2, 3] 2 (by decide) (by decide)).2.2
      (by decide)⟩

end Escpos

namespace Escpos

/-- C4: evaluating `print_chart` at a constant series.  With printer width 4
(canvas width 2) and the constant series `[5, 5]`, the resampled values are
`[5, 5]`, `max - min = 0`, and the normalization step raises
`ZeroDivisionError` (line 174) — the chart is not rendered at all, contrary to
the claim that the degenerate `max == min` case is well-defined and renders a
flat line. -/
theorem c4_constant_series_zero_division :
    printChartBuckets 4 [5, 5] 10 = Except.error "ZeroDivisionError" := by
  have hv : chartValues [5, 5] 2 = [5, 5] := by
    simp [chartValues, decimate, pyRange0, List.range_succ]
  show normalizeChart (chartValues [5, 5] (4 - 2)) 10 = _
  norm_num [hv, normalizeChart, listMax, listMin]

/-- C9: `print_table` on a single `(key, value)` pair with padding 0 buffers
exactly one text line, and whenever `len(value) ≤ width - len(key) - 2` that
line is exactly `width` characters long (`width` = the printer's configured
column count, 48 in the concrete instance of the claim). -/
theorem c9_print_table_line_width (key value : String) (st : GState)
    (h : (value.length : Int) ≤ (st.width : Int) - key.length - 2) :
    (print_table [(key, value)] 0 st).buffer =
      st.buffer ++ [Command.printCmd (tableLine st.width 0 key value) none] ∧
    (tableLine st.width 0 key value).length = st.width := by
  constructor
  · simp [print_table, gText]
  · have hcolon : (": " : String).length = 2 := rfl
    simp only [tableLine, pyRJust, String.length_append, String.length_mk,
      List.length_replicate, hcolon, Nat.cast_ofNat, CharP.cast_eq_zero,
      mul_zero, sub_zero]
    split_ifs with hlt
    · simp only [String.length_append, String.length_mk,
        List.length_replicate, hcolon]
      omega
    · omega

/-- C9 witness: `printTable([("A", "1")], padding=0)` on a 48-column printer
buffers one line of exactly 48 characters. -/
theorem c9_print_table_line_width_witness :
    ((("1" : String).length : Int) ≤ ((48 : Nat) : Int) - ("A" : String).length - 2) ∧
    (print_table [("A", "1")] 0 (GState.mk (PState.mk 48 "#" false) 48 false [])).buffer =
      (GState.mk (PState.mk 48 "#" false) 48 false []).buffer ++
        [Command.printCmd
          (tableLine (GState.mk (PState.mk 48 "#" false) 48 false []).width 0 "A" "1") none] ∧
    (tableLine (GState.mk (PState.mk 48 "#" false) 48 false []).width 0 "A" "1").length =
      (GState.mk (PState.mk 48 "#" false) 48 false []).width := by
  refine ⟨by decide, ?_, ?_⟩
  · exact (c9_print_table_line_width "A" "1"
      (GState.mk (PState.mk 48 "#" false) 48 false []) (by decide)).1
  · exact (c9_print_table_line_width "A" "1"
      (GState.mk (PState.mk 48 "#" false) 48 false []) (by decide)).2

end Escpos
